import Mathlib

/-!
Shallow embedding of the ibctest repository's `ibc` channel-option
validation and of the Docker-based relayer (`relayer.DockerRelayer`).

Conventions of the embedding:
- Go errors are modelled as `Option String` (`none` is a nil error).
- Wall-clock times are modelled as naturals (nanoseconds since the Unix
  epoch); the clock is threaded through the state and only ever advances.
- Calls into the Docker daemon are modelled by an environment record that
  supplies each call's outcome; every function additionally returns the
  ordered trace of Docker operations it issued, so that ordering and
  labelling invariants can be stated.
- Reports delivered to a `RelayerExecReporter` are returned as an explicit
  list of `ExecReport` values (one entry per `TrackRelayerExec` call made
  with the caller-supplied reporter).
-/

namespace Ibctest

/-! ## Channel creation options (`ibc` package) -/

/-- Order represents an IBC channel's ordering (`ibc.Order`, an int enum
with `Invalid` as the zero value). -/
inductive Order where
  | Invalid
  | Ordered
  | Unordered
deriving DecidableEq, Repr

/-- Errors returned by `CreateChannelOptions.Validate`; the Go code returns
`ptypes.ErrInvalidPort`, a fresh "invalid channel version" error, or
`chantypes.ErrInvalidChannelOrdering`. -/
inductive ChannelValidationError where
  | ErrInvalidPort
  | ErrInvalidChannelVersion
  | ErrInvalidChannelOrdering
deriving DecidableEq, Repr

/-- Embedding of `ibc.Order.Validate`: valid iff `Ordered` or `Unordered`. -/
def Order.Validate (o : Order) : Option ChannelValidationError :=
  if o = Order.Ordered ∨ o = Order.Unordered then none
  else some ChannelValidationError.ErrInvalidChannelOrdering

/-- Modelled from the spec: the port-identifier syntax check
(`host.PortIdentifierValidator` from the external ibc-go dependency, not
under src/). Per ICS-24 `defaultIdentifierValidator(id, 2, 128)`: the
identifier must not be blank, must not contain `/`, must have length
between 2 and 128, and every character must be alphanumeric or one of
`.`, `_`, `+`, `-`, `#`, `[`, `]`, `<`, `>`. Lengths are counted in
characters (the identifiers in play are ASCII). -/
def isValidIDChar (ch : Char) : Bool :=
  ch.isAlpha || ch.isDigit || ch == '.' || ch == '_' || ch == '+' || ch == '-' ||
    ch == '#' || ch == '[' || ch == ']' || ch == '<' || ch == '>'

/-- Modelled from the spec: see `isValidIDChar`. -/
def PortIdentifierValidator (id : String) : Bool :=
  !(id.data.all Char.isWhitespace) &&
    !(id.data.contains '/') &&
    (2 ≤ id.data.length && id.data.length ≤ 128) &&
    id.data.all isValidIDChar

/-- Embedding of `ibc.CreateChannelOptions`. -/
structure CreateChannelOptions where
  SourcePortName : String
  DestPortName : String
  Order : Ibctest.Order
  Version : String
deriving DecidableEq, Repr

/-- Embedding of `ibc.DefaultChannelOpts`. -/
def DefaultChannelOpts : CreateChannelOptions :=
  { SourcePortName := "transfer"
    DestPortName := "transfer"
    Order := Order.Unordered
    Version := "ics20-1" }

/-- Embedding of `ibc.CreateChannelOptions.Validate`: the Go switch returns
the first matching error, else nil. -/
def CreateChannelOptions.Validate (opts : CreateChannelOptions) :
    Option ChannelValidationError :=
  if !(PortIdentifierValidator opts.SourcePortName) then
    some ChannelValidationError.ErrInvalidPort
  else if !(PortIdentifierValidator opts.DestPortName) then
    some ChannelValidationError.ErrInvalidPort
  else if opts.Version = "" then
    some ChannelValidationError.ErrInvalidChannelVersion
  else if (Order.Validate opts.Order).isSome then
    some ChannelValidationError.ErrInvalidChannelOrdering
  else
    none

/-! ## Docker relayer embedding (`relayer` package, src/unnamed/part_001) -/

/-- Go errors modelled as strings; `none` is a nil error. -/
abbrev GoError := Option String

/-- Embedding of `ibc.RelayerWallet`. -/
structure RelayerWallet where
  Mnemonic : String
  Address : String
deriving DecidableEq, Repr

/-- Modelled from the spec: `dockerutil.ContainerExecResult` (the
`internal/dockerutil` package is not under src/). Per the spec's
`ExecResult`: stdout bytes, stderr bytes, exit code, error. -/
structure ContainerExecResult where
  Err : GoError
  ExitCode : Int
  Stdout : String
  Stderr : String
deriving DecidableEq, Repr

/-- Modelled from the spec: the cleanup-label key `dockerutil.CleanupLabel`
(the `internal/dockerutil` package is not under src/). Its exact string
value is immaterial to the claims; only the key identity matters. -/
def CleanupLabel : String := "ibc-test"

/-- Modelled from the spec: `dockerutil.SanitizeContainerName` (not under
src/). No claim depends on its behaviour, so it is modelled as the
identity sanitizer. -/
def SanitizeContainerName (name : String) : String := name

/-- One call to `RelayerExecReporter.TrackRelayerExec` (src/unnamed/part_000). -/
structure ExecReport where
  containerName : String
  command : List String
  stdout : String
  stderr : String
  exitCode : Int
  startedAt : Nat
  finishedAt : Nat
  err : GoError
deriving DecidableEq, Repr

/-- Modelled from the spec: `ibc.DockerImage` ({repository, version/tag},
resolved to a pull reference); the defining file is not under src/. -/
structure DockerImage where
  Repository : String
  Version : String
deriving DecidableEq, Repr

/-- Pull reference of an image. -/
def DockerImage.Ref (i : DockerImage) : String := i.Repository ++ ":" ++ i.Version

/-- Embedding of the `RelayerCommander` interface (only the members the
claims exercise); an interface value is a record of functions. -/
structure RelayerCommander where
  Name : String
  DefaultContainerImage : String
  DefaultContainerVersion : String
  DockerUser : String
  Init : String → List String
  AddKey : String → String → String → List String
  RestoreKey : String → String → String → String → List String
  ParseAddKeyOutput : String → String → Except String RelayerWallet
  ParseRestoreKeyOutput : String → String → String

/-- Immutable part of a `DockerRelayer` value (the fields that are set at
construction and never reassigned). -/
structure DockerRelayer where
  c : RelayerCommander
  networkID : String
  volumeName : String
  testName : String
  customImage : Option DockerImage
  pullImage : Bool

/-- Mutable part of a `DockerRelayer` value plus the modelled wall clock:
`wallets` (the chainID-to-wallet map, modelled as a lookup function) and
`containerID` are reassigned by methods; `now` is the current time. -/
structure RelayerState where
  wallets : String → Option RelayerWallet
  containerID : String
  now : Nat

/-- Embedding of `DockerRelayer.HomeDir`. -/
def DockerRelayer.HomeDir (r : DockerRelayer) : String :=
  "/var/relayer-" ++ r.c.Name

/-- Embedding of `DockerRelayer.Name`. -/
def DockerRelayer.Name (r : DockerRelayer) : String :=
  r.c.Name ++ "-" ++ SanitizeContainerName r.testName

/-- Embedding of `DockerRelayer.containerImage`. -/
def DockerRelayer.containerImage (r : DockerRelayer) : DockerImage :=
  match r.customImage with
  | some i => i
  | none =>
    { Repository := r.c.DefaultContainerImage
      Version := r.c.DefaultContainerVersion }

/-- One operation issued against the Docker daemon (or the dockerutil
facade). Traces of these record the order of the calls a method makes;
payloads record only the data the claims inspect. -/
inductive DockerOp where
  | imagePull (ref : String)
  | volumeCreate (labels : List (String × String))
  | setVolumeOwner (volumeName : String)
  | imageRun (cmd : List String)
  | containerCreate (labels : List (String × String))
  | copyToContainer (path : String)
  | containerStart
  | containerWait
  | containerStop
  | containerLogs
  | containerInspect
  | containerRemove
deriving DecidableEq, Repr

/-- Embedding of `DockerRelayer.Exec`. `runRes` is the environment's
outcome for `dockerutil.NewImage(...).Run(ctx, cmd, opts)` and `runDur` the
wall-clock time that call consumed. Returns the run result, the reports
delivered to the caller's reporter (the deferred `TrackRelayerExec` runs
exactly once, on success and on failure alike), and the updated state. -/
def DockerRelayer.Exec (r : DockerRelayer) (cmd _envVars : List String)
    (runRes : ContainerExecResult) (runDur : Nat) (s : RelayerState) :
    ContainerExecResult × List ExecReport × RelayerState :=
  let startedAt := s.now
  let finish := s.now + runDur
  let rep : ExecReport :=
    { containerName := r.Name
      command := cmd
      stdout := runRes.Stdout
      stderr := runRes.Stderr
      exitCode := runRes.ExitCode
      startedAt := startedAt
      finishedAt := finish
      err := runRes.Err }
  (runRes, [rep], { s with now := finish })

/-- Embedding of `DockerRelayer.AddKey`. On a run error or a
`ParseAddKeyOutput` failure it returns the zero wallet with that error and
does not touch the wallets map; on success it stores and returns the
parsed wallet. -/
def DockerRelayer.AddKey (r : DockerRelayer) (chainID keyName : String)
    (runRes : ContainerExecResult) (runDur : Nat) (s : RelayerState) :
    (RelayerWallet × GoError) × List ExecReport × RelayerState :=
  let cmd := r.c.AddKey chainID keyName r.HomeDir
  match r.Exec cmd [] runRes runDur s with
  | (res, reps, s1) =>
    match res.Err with
    | some e => ((⟨"", ""⟩, some e), reps, s1)
    | none =>
      match r.c.ParseAddKeyOutput res.Stdout res.Stderr with
      | .error e => ((⟨"", ""⟩, some e), reps, s1)
      | .ok wallet =>
        ((wallet, none), reps,
          { s1 with
            wallets := fun k => if k = chainID then some wallet else s1.wallets k })

/-- Embedding of `DockerRelayer.RestoreKey`. On a run error it returns that
error and does not touch the wallets map; on success it stores the wallet
built from the mnemonic and `ParseRestoreKeyOutput`. -/
def DockerRelayer.RestoreKey (r : DockerRelayer) (chainID keyName mnemonic : String)
    (runRes : ContainerExecResult) (runDur : Nat) (s : RelayerState) :
    GoError × List ExecReport × RelayerState :=
  let cmd := r.c.RestoreKey chainID keyName mnemonic r.HomeDir
  match r.Exec cmd [] runRes runDur s with
  | (res, reps, s1) =>
    match res.Err with
    | some e => (some e, reps, s1)
    | none =>
      let wallet : RelayerWallet :=
        { Mnemonic := mnemonic
          Address := r.c.ParseRestoreKeyOutput res.Stdout res.Stderr }
      (none, reps,
        { s1 with
          wallets := fun k => if k = chainID then some wallet else s1.wallets k })

/-- Embedding of `DockerRelayer.GetWallet` (the receiver's wallets map
lives in `RelayerState` in this embedding): the Go comma-ok map read
yields the zero `RelayerWallet` and `false` when the key is absent. -/
def DockerRelayer.GetWallet (s : RelayerState) (chainID : String) :
    RelayerWallet × Bool :=
  match s.wallets chainID with
  | some w => (w, true)
  | none => (⟨"", ""⟩, false)

/-- Environment outcomes for `createNodeContainer`: the result of
`ContainerCreate` (ok carries the new container id) and of
`dockerutil.StartContainer`. -/
structure CreateNodeEnv where
  createRes : Except String String
  startErr : GoError

/-- Embedding of `DockerRelayer.createNodeContainer`: create the
long-running container (labelled with the cleanup label), remember its id,
then start it. -/
def DockerRelayer.createNodeContainer (r : DockerRelayer) (_pathName : String)
    (env : CreateNodeEnv) (s : RelayerState) :
    GoError × RelayerState × List DockerOp :=
  let createOp := DockerOp.containerCreate [(CleanupLabel, r.testName)]
  match env.createRes with
  | .error e => (some e, s, [createOp])
  | .ok id =>
    let s1 := { s with containerID := id }
    (env.startErr, s1, [createOp, DockerOp.containerStart])

/-- Embedding of `DockerRelayer.StartRelayer`. -/
def DockerRelayer.StartRelayer (r : DockerRelayer) (pathName : String)
    (env : CreateNodeEnv) (s : RelayerState) :
    GoError × RelayerState × List DockerOp :=
  r.createNodeContainer pathName env s

/-- The fragment of Docker's `ContainerInspect` response that
`StopRelayer` reads (`c.State`). -/
structure ContainerStateJSON where
  StartedAt : String
  FinishedAt : String
  ExitCode : Int
deriving DecidableEq, Repr

/-- The fragment of Docker's `ContainerInspect` response that
`StopRelayer` reads. -/
structure ContainerJSON where
  Name : String
  Args : List String
  State : ContainerStateJSON
deriving DecidableEq, Repr

/-- Go's `time.RFC3339Nano` reference layout string. -/
def RFC3339Nano : String := "2006-01-02T15:04:05.999999999Z07:00"

/-- Environment outcomes for `StopRelayer`. `timeParse layout value`
models Go's `time.Parse(layout, value)`: `some t` on success, `none` on a
parse error. Note that the source calls it as
`time.Parse(c.State.StartedAt, time.RFC3339Nano)`, i.e. with the recorded
timestamp in the layout position. -/
structure StopEnv where
  stopErr : GoError
  logsErr : GoError
  demuxRes : Except String (String × String)
  inspectRes : Except String ContainerJSON
  removeErr : GoError
  timeParse : String → String → Option Nat

/-- Embedding of `DockerRelayer.StopRelayer`: stop the container, fetch and
demux its logs, inspect it, synthesize one `ExecReport` (substituting the
Unix epoch for an unparsable start time and the current UTC time for an
unparsable finish time), deliver it to the reporter, and remove the
container. Returns the Go error, the reports delivered to the reporter,
the state, and the Docker-operation trace. -/
def DockerRelayer.StopRelayer (_r : DockerRelayer) (env : StopEnv)
    (s : RelayerState) :
    GoError × List ExecReport × RelayerState × List DockerOp :=
  match env.stopErr with
  | some e => (some e, [], s, [DockerOp.containerStop])
  | none =>
    match env.logsErr with
    | some e =>
      (some ("StopRelayer: retrieving ContainerLogs: " ++ e), [], s,
        [DockerOp.containerStop, DockerOp.containerLogs])
    | none =>
      match env.demuxRes with
      | .error e =>
        (some ("StopRelayer: demuxing logs: " ++ e), [], s,
          [DockerOp.containerStop, DockerOp.containerLogs])
      | .ok (stdout, stderr) =>
        match env.inspectRes with
        | .error e =>
          (some ("StopRelayer: inspecting container: " ++ e), [], s,
            [DockerOp.containerStop, DockerOp.containerLogs,
              DockerOp.containerInspect])
        | .ok c =>
          -- Source: startedAt, err := time.Parse(c.State.StartedAt, time.RFC3339Nano)
          let startedAt :=
            match env.timeParse c.State.StartedAt RFC3339Nano with
            | some t => t
            | none => 0
          -- Source: finishedAt, err := time.Parse(c.State.FinishedAt, time.RFC3339Nano)
          let finishedAt :=
            match env.timeParse c.State.FinishedAt RFC3339Nano with
            | some t => t
            | none => s.now
          let rep : ExecReport :=
            { containerName := c.Name
              command := c.Args
              stdout := stdout
              stderr := stderr
              exitCode := c.State.ExitCode
              startedAt := startedAt
              finishedAt := finishedAt
              err := none }
          (env.removeErr, [rep], s,
            [DockerOp.containerStop, DockerOp.containerLogs,
              DockerOp.containerInspect, DockerOp.containerRemove])

/-! ## Tar archive model (`archive/tar` as used by `generateConfigTar`) -/

/-- The only header format the relayer uses (`tar.FormatPAX`). -/
inductive TarFormat where
  | PAX
deriving DecidableEq, Repr

/-- The fields of `tar.Header` that `generateConfigTar` sets. Times are
modelled as naturals, sizes and modes as in Go (int64). -/
structure TarHeader where
  Name : String
  Size : Int
  Mode : Int
  Uname : String
  ModTime : Nat
  Format : TarFormat
deriving DecidableEq, Repr

/-- One member of a tar archive: its header and its content bytes. The
archive is modelled at member granularity rather than at the level of the
on-wire 512-byte block encoding. -/
structure TarMember where
  header : TarHeader
  content : List Nat
deriving DecidableEq, Repr

/-- A tar archive, as the ordered list of its members. -/
abbrev TarArchive := List TarMember

/-- State of an in-progress `tar.Writer`: the completed members and the
member currently being written (header plus bytes written so far). -/
structure TarWriterState where
  members : List TarMember
  cur : Option (TarHeader × List Nat)
deriving DecidableEq, Repr

/-- Model of `tar.Writer.Flush`: finishing the current member fails when
fewer bytes than the announced `Size` were written. -/
def tarFlush (tw : TarWriterState) : Except String TarWriterState :=
  match tw.cur with
  | none => .ok tw
  | some (hdr, written) =>
    if (written.length : Int) < hdr.Size then .error "missed writing bytes"
    else .ok { members := tw.members ++ [⟨hdr, written⟩], cur := none }

/-- Model of `tar.Writer.WriteHeader`: flush the previous member and begin
a new one. -/
def tarWriteHeader (tw : TarWriterState) (hdr : TarHeader) :
    Except String TarWriterState :=
  match tarFlush tw with
  | .error e => .error e
  | .ok tw1 => .ok { tw1 with cur := some (hdr, []) }

/-- Model of `tar.Writer.Write`: fails when the write would exceed the
current header's announced `Size`. -/
def tarWrite (tw : TarWriterState) (b : List Nat) : Except String TarWriterState :=
  match tw.cur with
  | none => .error "write too long"
  | some (hdr, written) =>
    if ((written.length + b.length : Nat) : Int) > hdr.Size then
      .error "write too long"
    else .ok { tw with cur := some (hdr, written ++ b) }

/-- Model of `tar.Writer.Close`: flush and return the finished archive. -/
def tarClose (tw : TarWriterState) : Except String TarArchive :=
  match tarFlush tw with
  | .error e => .error e
  | .ok tw1 => .ok tw1.members

/-- Embedding of `DockerRelayer.generateConfigTar`: write a single header
(name = the relative config path, size = the content length, mode 0600,
owner name = the Commander's Docker user, modification time = now, PAX
format) followed by the content, then close the writer. -/
def DockerRelayer.generateConfigTar (r : DockerRelayer) (now : Nat)
    (relativeConfigPath : String) (content : List Nat) :
    Except String TarArchive :=
  let hdr : TarHeader :=
    { Name := relativeConfigPath
      Size := (content.length : Int)
      Mode := 0o600
      Uname := r.c.DockerUser
      ModTime := now
      Format := TarFormat.PAX }
  match tarWriteHeader { members := [], cur := none } hdr with
  | .error e => .error ("writing config file to tar: " ++ e)
  | .ok tw1 =>
    match tarWrite tw1 content with
    | .error e => .error ("writing config content to tar: " ++ e)
    | .ok tw2 =>
      match tarClose tw2 with
      | .error e => .error ("closing tar writer: " ++ e)
      | .ok arch => .ok arch

/-! ## One-off jobs -/

/-- Embedding of `oneOffOptions`; `TarContent` models the optional
`io.Reader` holding a tar archive. -/
structure OneOffOptions where
  ContainerNameDetail : String
  Entrypoint : List String
  Cmd : List String
  User : String
  TarContent : Option TarArchive

/-- Which branch of the `select` over `ctx.Done()`, the wait error channel
and the wait result channel fires first. -/
inductive WaitBranch where
  | ctxDone
  | errCh (err : GoError)
  | waitCh (statusCode : Int) (errMsg : Option String)
deriving DecidableEq, Repr

/-- Environment outcomes for `runOneOff`. `ctxErr` is the value of
`ctx.Err()` when the context is cancelled. -/
structure OneOffEnv where
  createRes : Except String String
  copyErr : GoError
  startErr : GoError
  waitBranch : WaitBranch
  removeErr : GoError
  ctxErr : String

/-- Embedding of `DockerRelayer.runOneOff`: create the container (labelled
with the cleanup label), then — with removal deferred to every later exit
path, its failure logged and not propagated — copy the tar content into
the home directory if present, start the container, and wait for it to
leave the running state or for the context to be cancelled. Returns the
Go error and the Docker-operation trace. -/
def DockerRelayer.runOneOff (r : DockerRelayer) (opts : OneOffOptions)
    (env : OneOffEnv) : GoError × List DockerOp :=
  let createOp := DockerOp.containerCreate [(CleanupLabel, r.testName)]
  match env.createRes with
  | .error e =>
    (some ("creating container for " ++ opts.ContainerNameDetail ++ ": " ++ e),
      [createOp])
  | .ok _ =>
    let copyOps : List DockerOp :=
      match opts.TarContent with
      | some _ => [DockerOp.copyToContainer r.HomeDir]
      | none => []
    match opts.TarContent, env.copyErr with
    | some _, some e =>
      (some ("copying tar to one-off " ++ opts.ContainerNameDetail ++
          " container: " ++ e),
        [createOp, DockerOp.copyToContainer r.HomeDir, DockerOp.containerRemove])
    | _, _ =>
      match env.startErr with
      | some e =>
        (some ("starting one-off " ++ opts.ContainerNameDetail ++
            " container: " ++ e),
          createOp :: copyOps ++ [DockerOp.containerStart, DockerOp.containerRemove])
      | none =>
        let res : GoError :=
          match env.waitBranch with
          | .ctxDone => some env.ctxErr
          | .errCh err => err
          | .waitCh _ (some msg) =>
            some ("waiting for one-off " ++ opts.ContainerNameDetail ++
              " container: " ++ msg)
          | .waitCh _ none => none
        (res,
          createOp :: copyOps ++
            [DockerOp.containerStart, DockerOp.containerWait,
              DockerOp.containerRemove])

/-! ## Construction -/

/-- Environment outcomes for `NewDockerRelayer`: the image pull, the
volume creation (ok carries the runtime-assigned volume name),
`dockerutil.SetVolumeOwner`, and the init command's one-off run. -/
structure NewRelayerEnv where
  pullErr : GoError
  volumeRes : Except String String
  setOwnerErr : GoError
  initRunRes : ContainerExecResult
  initRunDur : Nat

/-- Embedding of `NewDockerRelayer`. The `RelayerOption` fold is reflected
by taking the resulting `customImage` and `pullImage` directly. Pull the
image if configured to, create the test-labelled volume, set its owner,
and run the Commander's init command (if any) through `Exec` with the nop
reporter (so its report is delivered nowhere). Returns the constructed
relayer and initial state (or the error), plus the Docker-operation
trace. -/
def NewDockerRelayer (testName : String) (c : RelayerCommander)
    (networkID : String) (customImage : Option DockerImage) (pullImage : Bool)
    (env : NewRelayerEnv) (startNow : Nat) :
    Except String (DockerRelayer × RelayerState) × List DockerOp :=
  let r : DockerRelayer :=
    { c := c, networkID := networkID, volumeName := "", testName := testName,
      customImage := customImage, pullImage := pullImage }
  let containerImage := r.containerImage
  let pullOps : List DockerOp :=
    if pullImage then [DockerOp.imagePull containerImage.Ref] else []
  match (if pullImage then env.pullErr else none) with
  | some e =>
    (.error ("pulling container image " ++ containerImage.Ref ++ ": " ++ e),
      pullOps)
  | none =>
    let volOp := DockerOp.volumeCreate [(CleanupLabel, testName)]
    match env.volumeRes with
    | .error e => (.error ("creating volume: " ++ e), pullOps ++ [volOp])
    | .ok vname =>
      let r := { r with volumeName := vname }
      match env.setOwnerErr with
      | some e =>
        (.error ("set volume owner: " ++ e),
          pullOps ++ [volOp, DockerOp.setVolumeOwner vname])
      | none =>
        let ops := pullOps ++ [volOp, DockerOp.setVolumeOwner vname]
        let s0 : RelayerState :=
          { wallets := fun _ => none, containerID := "", now := startNow }
        let initCmd := c.Init r.HomeDir
        if 0 < initCmd.length then
          match r.Exec initCmd [] env.initRunRes env.initRunDur s0 with
          | (res, _reps, s1) =>
            match res.Err with
            | some e => (.error e, ops ++ [DockerOp.imageRun initCmd])
            | none => (.ok (r, s1), ops ++ [DockerOp.imageRun initCmd])
        else
          (.ok (r, s0), ops)

/-! ## Call histories

A `RelayerOpCall` is one state-touching method call on a `DockerRelayer`,
together with the environment outcomes that call observed; running a list
of them from the initial state models an arbitrary usage history. -/

/-- One method call on a `DockerRelayer` with its environment outcomes. -/
inductive RelayerOpCall where
  | exec (cmd envVars : List String) (runRes : ContainerExecResult) (runDur : Nat)
  | addKey (chainID keyName : String) (runRes : ContainerExecResult) (runDur : Nat)
  | restoreKey (chainID keyName mnemonic : String)
      (runRes : ContainerExecResult) (runDur : Nat)
  | startRelayer (pathName : String) (env : CreateNodeEnv)
  | stopRelayer (env : StopEnv)

/-- The state after one method call. -/
def stepCall (r : DockerRelayer) (s : RelayerState) : RelayerOpCall → RelayerState
  | .exec cmd envVars runRes runDur => (r.Exec cmd envVars runRes runDur s).2.2
  | .addKey chainID keyName runRes runDur =>
    (r.AddKey chainID keyName runRes runDur s).2.2
  | .restoreKey chainID keyName mnemonic runRes runDur =>
    (r.RestoreKey chainID keyName mnemonic runRes runDur s).2.2
  | .startRelayer pathName env => (r.StartRelayer pathName env s).2.1
  | .stopRelayer env => (r.StopRelayer env s).2.2.1

/-- The state after a list of method calls, oldest first. -/
def runCalls (r : DockerRelayer) : RelayerState → List RelayerOpCall → RelayerState
  | s, [] => s
  | s, op :: ops => runCalls r (stepCall r s op) ops

/-- Whether a call is a successful `AddKey` or `RestoreKey` for the given
chain ID (success of either is determined by the call's environment
outcomes and the relayer's Commander). -/
def RelayerOpCall.addsWalletFor (r : DockerRelayer) (chainID : String) :
    RelayerOpCall → Bool
  | .addKey cid _ runRes _ =>
    decide (cid = chainID) && runRes.Err.isNone &&
      (match r.c.ParseAddKeyOutput runRes.Stdout runRes.Stderr with
        | .ok _ => true
        | .error _ => false)
  | .restoreKey cid _ _ runRes _ => decide (cid = chainID) && runRes.Err.isNone
  | _ => false

/-! ## Concrete fixtures used by witness instantiations -/

/-- A concrete Commander. -/
def exampleCommander : RelayerCommander :=
  { Name := "rly"
    DefaultContainerImage := "ghcr.io/cosmos/relayer"
    DefaultContainerVersion := "v2.0.0"
    DockerUser := "100:1000"
    Init := fun _ => []
    AddKey := fun chainID keyName home =>
      ["rly", "keys", "add", chainID, keyName, "--home", home]
    RestoreKey := fun chainID keyName mnemonic home =>
      ["rly", "keys", "restore", chainID, keyName, mnemonic, "--home", home]
    ParseAddKeyOutput := fun stdout _ => .ok { Mnemonic := "", Address := stdout }
    ParseRestoreKeyOutput := fun stdout _ => stdout }

/-- A concrete relayer. -/
def exampleRelayer : DockerRelayer :=
  { c := exampleCommander, networkID := "net", volumeName := "volume-1",
    testName := "TestExample", customImage := none, pullImage := true }

/-- A concrete state. -/
def exampleState : RelayerState :=
  { wallets := fun _ => none, containerID := "ctr-0", now := 1000 }

/-- A concrete container-inspect response whose recorded timestamps are
valid RFC3339Nano strings. -/
def exampleContainerJSON : ContainerJSON :=
  { Name := "/rly-path", Args := ["rly", "start"],
    State := { StartedAt := "2022-01-01T00:00:00.000000000Z",
               FinishedAt := "2022-01-01T00:10:00.000000000Z", ExitCode := 0 } }

/-- A concrete `StopRelayer` environment in which every Docker call
succeeds and both timestamp parses fail (as they do in every real run,
the recorded timestamp standing in the layout position). -/
def exampleStopEnv : StopEnv :=
  { stopErr := none, logsErr := none, demuxRes := .ok ("out", "err"),
    inspectRes := .ok exampleContainerJSON, removeErr := none,
    timeParse := fun _ _ => none }

/-- A concrete failed run result. -/
def exampleFailRes : ContainerExecResult :=
  { Err := some "boom", ExitCode := 1, Stdout := "", Stderr := "" }

/-- A concrete `NewDockerRelayer` environment in which construction
succeeds. -/
def exampleNewEnv : NewRelayerEnv :=
  { pullErr := none, volumeRes := .ok "volume-1", setOwnerErr := none,
    initRunRes := { Err := none, ExitCode := 0, Stdout := "", Stderr := "" },
    initRunDur := 0 }

/-- The relayer that `NewDockerRelayer` builds in `exampleNewEnv` (with
pulling disabled). -/
def exampleNewRelayer : DockerRelayer :=
  { c := exampleCommander, networkID := "net", volumeName := "volume-1",
    testName := "TestExample", customImage := none, pullImage := false }

/-- The initial state that `NewDockerRelayer` builds in `exampleNewEnv`. -/
def exampleNewState : RelayerState :=
  { wallets := fun _ => none, containerID := "", now := 0 }

/-- A concrete one-off job carrying tar content. -/
def exampleOneOffOpts : OneOffOptions :=
  { ContainerNameDetail := "untar-chown", Entrypoint := [],
    Cmd := ["chown", "-R", "100:1000", "/var/relayer-rly"], User := "0:0",
    TarContent := some [] }

/-- A concrete one-off environment in which every call succeeds and the
wait observes a normal exit. -/
def exampleOneOffEnv : OneOffEnv :=
  { createRes := .ok "ctr-1", copyErr := none, startErr := none,
    waitBranch := WaitBranch.waitCh 0 none, removeErr := none,
    ctxErr := "context canceled" }

/-- A concrete one-off environment in which the context is cancelled while
waiting. -/
def exampleCancelEnv : OneOffEnv :=
  { createRes := .ok "ctr-2", copyErr := none, startErr := none,
    waitBranch := WaitBranch.ctxDone, removeErr := none,
    ctxErr := "context canceled" }

/-- A concrete `createNodeContainer` environment in which creation and
start succeed. -/
def exampleCreateEnv : CreateNodeEnv :=
  { createRes := .ok "ctr-3", startErr := none }

/-! ## Theorems -/

/-- Claim C1: `CreateChannelOptions.Validate` returns nil iff both port
names pass the port-identifier syntax check, the version is non-empty and
the ordering is exactly `Ordered` or `Unordered`; the zero-value ordering
(`Invalid`) makes it fail; and each violated condition yields the
corresponding error (invalid port, invalid channel version, invalid
channel ordering, in the switch's order). -/
theorem createChannelOptions_validate_spec (opts : CreateChannelOptions) :
    (opts.Validate = none ↔
      (PortIdentifierValidator opts.SourcePortName = true ∧
        PortIdentifierValidator opts.DestPortName = true ∧
        opts.Version ≠ "" ∧
        (opts.Order = Order.Ordered ∨ opts.Order = Order.Unordered))) ∧
    (opts.Order = Order.Invalid → opts.Validate ≠ none) ∧
    ((PortIdentifierValidator opts.SourcePortName = false ∨
        PortIdentifierValidator opts.DestPortName = false) →
      opts.Validate = some ChannelValidationError.ErrInvalidPort) ∧
    (PortIdentifierValidator opts.SourcePortName = true →
      PortIdentifierValidator opts.DestPortName = true →
      opts.Version = "" →
      opts.Validate = some ChannelValidationError.ErrInvalidChannelVersion) ∧
    (PortIdentifierValidator opts.SourcePortName = true →
      PortIdentifierValidator opts.DestPortName = true →
      opts.Version ≠ "" →
      opts.Order ≠ Order.Ordered → opts.Order ≠ Order.Unordered →
      opts.Validate = some ChannelValidationError.ErrInvalidChannelOrdering) := by
  obtain ⟨sp, dp, o, v⟩ := opts
  simp only [CreateChannelOptions.Validate, Order.Validate]
  cases hs : PortIdentifierValidator sp <;> cases hd : PortIdentifierValidator dp <;>
    cases o <;> by_cases hv : v = "" <;> simp [hs, hd, hv]

/-- Witness for C1: at otherwise-valid options whose ordering is the
zero value `Invalid`, `Validate` returns the invalid-ordering error. -/
theorem createChannelOptions_validate_spec_witness :
    (CreateChannelOptions.mk "transfer" "transfer" Order.Invalid "ics20-1").Validate
      = some ChannelValidationError.ErrInvalidChannelOrdering :=
  (createChannelOptions_validate_spec
      (CreateChannelOptions.mk "transfer" "transfer" Order.Invalid "ics20-1")).2.2.2.2
    (by decide) (by decide) (by decide) (by decide) (by decide)

/-- Claim C4: `DefaultChannelOpts` returns exactly the documented defaults
(`transfer`/`transfer`/`Unordered`/`ics20-1`), and those options pass
`Validate`. -/
theorem defaultChannelOpts_spec :
    DefaultChannelOpts =
      { SourcePortName := "transfer", DestPortName := "transfer",
        Order := Order.Unordered, Version := "ics20-1" } ∧
    DefaultChannelOpts.Validate = none :=
  ⟨rfl, by decide⟩

/-- Claim C2: `Exec` delivers exactly one report to the reporter per
invocation — the deferred `TrackRelayerExec` runs whether the underlying
run succeeded or failed — with start time at most end time; a
`StopRelayer` call that returns without error delivers exactly one
synthesized report; and (given that the swapped-argument timestamp parse
of the recorded start time fails, as it does in every real execution, see
C3) that report also has start time at most end time. -/
theorem trackRelayerExec_exactly_once (r : DockerRelayer) :
    (∀ cmd envVars runRes runDur s,
      (r.Exec cmd envVars runRes runDur s).2.1.length = 1 ∧
      ∀ rep ∈ (r.Exec cmd envVars runRes runDur s).2.1,
        rep.startedAt ≤ rep.finishedAt) ∧
    (∀ env s, (r.StopRelayer env s).1 = none →
      (r.StopRelayer env s).2.1.length = 1) ∧
    (∀ env s c, env.inspectRes = .ok c →
      env.timeParse c.State.StartedAt RFC3339Nano = none →
      ∀ rep ∈ (r.StopRelayer env s).2.1, rep.startedAt ≤ rep.finishedAt) := by
  refine ⟨?_, ?_, ?_⟩
  · intro cmd envVars runRes runDur s
    refine ⟨rfl, ?_⟩
    intro rep hrep
    simp only [DockerRelayer.Exec, List.mem_singleton] at hrep
    subst hrep
    exact Nat.le_add_right _ _
  · intro env s h
    obtain ⟨se, le, dr, ir, re, tp⟩ := env
    cases se with
    | some e => simp [DockerRelayer.StopRelayer] at h
    | none =>
      cases le with
      | some e => simp [DockerRelayer.StopRelayer] at h
      | none =>
        cases dr with
        | error e => simp [DockerRelayer.StopRelayer] at h
        | ok p =>
          obtain ⟨o, er⟩ := p
          cases ir with
          | error e => simp [DockerRelayer.StopRelayer] at h
          | ok c => rfl
  · intro env s c hc hp
    obtain ⟨se, le, dr, ir, re, tp⟩ := env
    simp only at hc hp
    subst hc
    cases se with
    | some e => simp [DockerRelayer.StopRelayer]
    | none =>
      cases le with
      | some e => simp [DockerRelayer.StopRelayer]
      | none =>
        cases dr with
        | error e => simp [DockerRelayer.StopRelayer]
        | ok p =>
          obtain ⟨o, er⟩ := p
          simp [DockerRelayer.StopRelayer, hp]

/-- Witness for C2 at concrete inputs: a failing `Exec` still delivers
exactly one ordered report, and a successful `StopRelayer` delivers
exactly one ordered report. -/
theorem trackRelayerExec_exactly_once_witness :
    ((exampleRelayer.Exec ["rly", "tx", "link"] [] exampleFailRes 5 exampleState).2.1.length = 1) ∧
    (∀ rep ∈ (exampleRelayer.Exec ["rly", "tx", "link"] [] exampleFailRes 5 exampleState).2.1,
      rep.startedAt ≤ rep.finishedAt) ∧
    ((exampleRelayer.StopRelayer exampleStopEnv exampleState).2.1.length = 1) ∧
    (∀ rep ∈ (exampleRelayer.StopRelayer exampleStopEnv exampleState).2.1,
      rep.startedAt ≤ rep.finishedAt) :=
  ⟨((trackRelayerExec_exactly_once exampleRelayer).1 ["rly", "tx", "link"] [] exampleFailRes 5 exampleState).1,
   ((trackRelayerExec_exactly_once exampleRelayer).1 ["rly", "tx", "link"] [] exampleFailRes 5 exampleState).2,
   (trackRelayerExec_exactly_once exampleRelayer).2.1 exampleStopEnv exampleState rfl,
   (trackRelayerExec_exactly_once exampleRelayer).2.2 exampleStopEnv exampleState
     exampleContainerJSON rfl rfl⟩

/-- Claim C3 (code bug): the source invokes
`time.Parse(c.State.StartedAt, time.RFC3339Nano)` — Go's signature is
`Parse(layout, value)`, so the recorded timestamp stands in the layout
position and the constant layout string in the value position. Whenever
that swapped parse fails (which it does for every genuine RFC3339Nano
timestamp the runtime records), the synthesized report carries the
sentinel timestamps — the Unix epoch for start and the current time for
finish — instead of the recorded ones, and the parse failure never fails
`StopRelayer` itself: its result is exactly the container-removal
outcome. -/
theorem stopRelayer_swapped_parse_sentinels (r : DockerRelayer) (env : StopEnv)
    (s : RelayerState) (stdout stderr : String) (c : ContainerJSON)
    (h1 : env.stopErr = none) (h2 : env.logsErr = none)
    (h3 : env.demuxRes = .ok (stdout, stderr))
    (h4 : env.inspectRes = .ok c)
    (h5 : env.timeParse c.State.StartedAt RFC3339Nano = none)
    (h6 : env.timeParse c.State.FinishedAt RFC3339Nano = none) :
    (r.StopRelayer env s).1 = env.removeErr ∧
    (r.StopRelayer env s).2.1 =
      [{ containerName := c.Name, command := c.Args, stdout := stdout,
         stderr := stderr, exitCode := c.State.ExitCode,
         startedAt := 0, finishedAt := s.now, err := none }] := by
  obtain ⟨se, le, dr, ir, re, tp⟩ := env
  simp only at h1 h2 h3 h4 h5 h6
  subst h1 h2 h3 h4
  simp [DockerRelayer.StopRelayer, h5, h6]

/-- Witness for C3 at the failing input: a container whose recorded
timestamps are the valid RFC3339Nano strings of `exampleContainerJSON`;
the emitted report nevertheless carries the epoch start and the
current-time finish, and `StopRelayer` succeeds. -/
theorem stopRelayer_swapped_parse_sentinels_witness :
    (exampleRelayer.StopRelayer exampleStopEnv exampleState).1 = none ∧
    (exampleRelayer.StopRelayer exampleStopEnv exampleState).2.1 =
      [{ containerName := "/rly-path", command := ["rly", "start"],
         stdout := "out", stderr := "err", exitCode := 0,
         startedAt := 0, finishedAt := 1000, err := none }] :=
  stopRelayer_swapped_parse_sentinels exampleRelayer exampleStopEnv exampleState
    "out" "err" exampleContainerJSON rfl rfl rfl rfl rfl rfl

/-- Claim C10: `AddKey` and `RestoreKey` are atomic with respect to the
wallets map — on a run error, or (for `AddKey`) a `ParseAddKeyOutput`
error, the call returns the zero wallet together with that error and the
wallets map (hence any subsequent `GetWallet`) is unchanged. -/
theorem addKey_restoreKey_atomic (r : DockerRelayer) :
    (∀ chainID keyName runRes runDur s e, runRes.Err = some e →
      (r.AddKey chainID keyName runRes runDur s).1 = (⟨"", ""⟩, some e) ∧
      (r.AddKey chainID keyName runRes runDur s).2.2.wallets = s.wallets ∧
      ∀ cid, DockerRelayer.GetWallet (r.AddKey chainID keyName runRes runDur s).2.2 cid
        = DockerRelayer.GetWallet s cid) ∧
    (∀ chainID keyName runRes runDur s e, runRes.Err = none →
      r.c.ParseAddKeyOutput runRes.Stdout runRes.Stderr = .error e →
      (r.AddKey chainID keyName runRes runDur s).1 = (⟨"", ""⟩, some e) ∧
      (r.AddKey chainID keyName runRes runDur s).2.2.wallets = s.wallets ∧
      ∀ cid, DockerRelayer.GetWallet (r.AddKey chainID keyName runRes runDur s).2.2 cid
        = DockerRelayer.GetWallet s cid) ∧
    (∀ chainID keyName mnemonic runRes runDur s e, runRes.Err = some e →
      (r.RestoreKey chainID keyName mnemonic runRes runDur s).1 = some e ∧
      (r.RestoreKey chainID keyName mnemonic runRes runDur s).2.2.wallets = s.wallets ∧
      ∀ cid, DockerRelayer.GetWallet
          (r.RestoreKey chainID keyName mnemonic runRes runDur s).2.2 cid
        = DockerRelayer.GetWallet s cid) := by
  refine ⟨?_, ?_, ?_⟩
  · intro chainID keyName runRes runDur s e he
    simp [DockerRelayer.AddKey, DockerRelayer.Exec, he, DockerRelayer.GetWallet]
  · intro chainID keyName runRes runDur s e he hp
    simp [DockerRelayer.AddKey, DockerRelayer.Exec, he, hp, DockerRelayer.GetWallet]
  · intro chainID keyName mnemonic runRes runDur s e he
    simp [DockerRelayer.RestoreKey, DockerRelayer.Exec, he, DockerRelayer.GetWallet]

/-- Witness for C10: a failing `AddKey` at concrete inputs returns the
zero wallet with the run error and leaves the wallets map untouched. -/
theorem addKey_restoreKey_atomic_witness :
    (exampleRelayer.AddKey "chain-1" "key" exampleFailRes 5 exampleState).1
      = (⟨"", ""⟩, some "boom") ∧
    (exampleRelayer.AddKey "chain-1" "key" exampleFailRes 5 exampleState).2.2.wallets
      = exampleState.wallets ∧
    DockerRelayer.GetWallet
        (exampleRelayer.AddKey "chain-1" "key" exampleFailRes 5 exampleState).2.2 "chain-1"
      = DockerRelayer.GetWallet exampleState "chain-1" :=
  let h := (addKey_restoreKey_atomic exampleRelayer).1 "chain-1" "key" exampleFailRes 5
    exampleState "boom" rfl
  ⟨h.1, h.2.1, h.2.2 "chain-1"⟩

/-- Claim C6: `generateConfigTar` produces an archive with exactly one
member, named by the given relative path, with mode 0600, owner name the
Commander's Docker user, announced size the content length, and content
byte-identical to the input. -/
theorem generateConfigTar_single_member (r : DockerRelayer) (now : Nat)
    (relPath : String) (content : List Nat) :
    r.generateConfigTar now relPath content =
      .ok [{ header := { Name := relPath, Size := (content.length : Int),
                         Mode := 0o600, Uname := r.c.DockerUser,
                         ModTime := now, Format := TarFormat.PAX },
             content := content }] := by
  simp [DockerRelayer.generateConfigTar, tarWriteHeader, tarFlush, tarWrite, tarClose]

/-- Helper: `StopRelayer` never changes the relayer state. -/
theorem stopRelayer_preserves_state (r : DockerRelayer) (env : StopEnv)
    (s : RelayerState) : (r.StopRelayer env s).2.2.1 = s := by
  obtain ⟨se, le, dr, ir, re, tp⟩ := env
  cases se with
  | some e => rfl
  | none =>
    cases le with
    | some e => rfl
    | none =>
      cases dr with
      | error e => rfl
      | ok p =>
        obtain ⟨o, er⟩ := p
        cases ir with
        | error e => rfl
        | ok c => rfl

/-- Helper: a call that is not a successful `AddKey`/`RestoreKey` for
`chainID` leaves `chainID` absent from the wallets map. -/
theorem stepCall_wallets_none (r : DockerRelayer) (s : RelayerState)
    (chainID : String) (op : RelayerOpCall)
    (hop : op.addsWalletFor r chainID = false)
    (h : s.wallets chainID = none) :
    (stepCall r s op).wallets chainID = none := by
  cases op with
  | exec cmd envVars runRes runDur =>
    simpa [stepCall, DockerRelayer.Exec] using h
  | addKey cid keyName runRes runDur =>
    simp only [stepCall, DockerRelayer.AddKey, DockerRelayer.Exec]
    cases hres : runRes.Err with
    | some e => simpa using h
    | none =>
      cases hp : r.c.ParseAddKeyOutput runRes.Stdout runRes.Stderr with
      | error e => simpa [hp] using h
      | ok w =>
        have hcid : cid ≠ chainID := by
          simp [RelayerOpCall.addsWalletFor, hres, hp] at hop
          exact hop
        simp only [hp]
        rw [if_neg (Ne.symm hcid)]
        exact h
  | restoreKey cid keyName mnemonic runRes runDur =>
    simp only [stepCall, DockerRelayer.RestoreKey, DockerRelayer.Exec]
    cases hres : runRes.Err with
    | some e => simpa using h
    | none =>
      have hcid : cid ≠ chainID := by
        simp [RelayerOpCall.addsWalletFor, hres] at hop
        exact hop
      dsimp only
      rw [if_neg (Ne.symm hcid)]
      exact h
  | startRelayer pathName cenv =>
    simp only [stepCall, DockerRelayer.StartRelayer, DockerRelayer.createNodeContainer]
    cases cenv.createRes with
    | error e => simpa using h
    | ok id => simpa using h
  | stopRelayer senv =>
    simpa [stepCall, stopRelayer_preserves_state] using h

/-- Helper: a history with no successful `AddKey`/`RestoreKey` for
`chainID` leaves `chainID` absent from the wallets map. -/
theorem runCalls_wallets_none (r : DockerRelayer) (chainID : String) :
    ∀ (ops : List RelayerOpCall) (s : RelayerState),
      (∀ op ∈ ops, op.addsWalletFor r chainID = false) →
      s.wallets chainID = none →
      (runCalls r s ops).wallets chainID = none := by
  intro ops
  induction ops with
  | nil => intro s _ h; simpa [runCalls] using h
  | cons op ops ih =>
    intro s hall h
    simp only [runCalls]
    exact ih _ (fun o ho => hall o (List.mem_cons_of_mem _ ho))
      (stepCall_wallets_none r s chainID op (hall op (List.mem_cons_self _ _)) h)

/-- Helper: a successfully constructed relayer starts with an empty
wallets map. -/
theorem newDockerRelayer_ok_wallets
    (testName : String) (c : RelayerCommander) (networkID : String)
    (customImage : Option DockerImage) (pullImage : Bool)
    (env : NewRelayerEnv) (startNow : Nat)
    (r : DockerRelayer) (s0 : RelayerState) (tr : List DockerOp)
    (hmk : NewDockerRelayer testName c networkID customImage pullImage env startNow
      = (.ok (r, s0), tr)) :
    ∀ k, s0.wallets k = none := by
  unfold NewDockerRelayer at hmk
  dsimp only at hmk
  split at hmk
  · simp at hmk
  · split at hmk
    · simp at hmk
    · split at hmk
      · simp at hmk
      · split at hmk
        · split at hmk
          · simp at hmk
          · simp only [Prod.mk.injEq, Except.ok.injEq] at hmk
            obtain ⟨⟨hr, hs⟩, htr⟩ := hmk
            subst hs
            intro k
            rfl
        · simp only [Prod.mk.injEq, Except.ok.injEq] at hmk
          obtain ⟨⟨hr, hs⟩, htr⟩ := hmk
          subst hs
          intro k
          rfl

/-- Claim C5: starting from a freshly constructed relayer, `GetWallet`
for a chain ID with no successful `AddKey`/`RestoreKey` in the call
history returns the zero wallet and `false` (a not-found indication, not
an error); immediately after a successful `AddKey` (resp. `RestoreKey`)
for a chain ID it returns the stored wallet and `true`. -/
theorem getWallet_reflects_added_keys
    (testName : String) (c : RelayerCommander) (networkID : String)
    (customImage : Option DockerImage) (pullImage : Bool)
    (env : NewRelayerEnv) (startNow : Nat)
    (r : DockerRelayer) (s0 : RelayerState) (tr : List DockerOp)
    (hmk : NewDockerRelayer testName c networkID customImage pullImage env startNow
      = (.ok (r, s0), tr)) :
    (∀ (ops : List RelayerOpCall) (chainID : String),
      (∀ op ∈ ops, op.addsWalletFor r chainID = false) →
      DockerRelayer.GetWallet (runCalls r s0 ops) chainID = (⟨"", ""⟩, false)) ∧
    (∀ s chainID keyName runRes runDur w,
      (r.AddKey chainID keyName runRes runDur s).1 = (w, none) →
      DockerRelayer.GetWallet (r.AddKey chainID keyName runRes runDur s).2.2 chainID
        = (w, true)) ∧
    (∀ s chainID keyName mnemonic runRes runDur,
      (r.RestoreKey chainID keyName mnemonic runRes runDur s).1 = none →
      DockerRelayer.GetWallet
          (r.RestoreKey chainID keyName mnemonic runRes runDur s).2.2 chainID
        = ({ Mnemonic := mnemonic,
             Address := r.c.ParseRestoreKeyOutput runRes.Stdout runRes.Stderr }, true)) := by
  refine ⟨?_, ?_, ?_⟩
  · intro ops chainID hall
    have h0 := newDockerRelayer_ok_wallets testName c networkID customImage pullImage
      env startNow r s0 tr hmk chainID
    have h := runCalls_wallets_none r chainID ops s0 hall h0
    simp [DockerRelayer.GetWallet, h]
  · intro s chainID keyName runRes runDur w hw
    simp only [DockerRelayer.AddKey, DockerRelayer.Exec] at hw ⊢
    cases hres : runRes.Err with
    | some e => simp [hres] at hw
    | none =>
      cases hp : r.c.ParseAddKeyOutput runRes.Stdout runRes.Stderr with
      | error e => simp [hres, hp] at hw
      | ok wallet =>
        simp only [hres, hp] at hw ⊢
        simp only [Prod.mk.injEq] at hw
        simp [DockerRelayer.GetWallet, hw.1]
  · intro s chainID keyName mnemonic runRes runDur hw
    simp only [DockerRelayer.RestoreKey, DockerRelayer.Exec] at hw ⊢
    cases hres : runRes.Err with
    | some e => simp [hres] at hw
    | none => simp [hres, DockerRelayer.GetWallet]

/-- Witness for C5: the empty history on a freshly constructed relayer
reports not-found for a concrete chain ID. -/
theorem getWallet_reflects_added_keys_witness :
    DockerRelayer.GetWallet
        (runCalls exampleNewRelayer exampleNewState []) "cosmoshub-1"
      = (⟨"", ""⟩, false) :=
  (getWallet_reflects_added_keys "TestExample" exampleCommander "net" none false
      exampleNewEnv 0 exampleNewRelayer exampleNewState
      [DockerOp.volumeCreate [(CleanupLabel, "TestExample")],
        DockerOp.setVolumeOwner "volume-1"] rfl).1
    [] "cosmoshub-1" (fun op hop => absurd hop (List.not_mem_nil op))

/-- Claim C8: if, after the one-off container has been created (and any
tar copy and the start succeeded), the context is cancelled while waiting
for the container to leave the running state — i.e. the `ctx.Done()`
branch of the select fires — then `runOneOff` returns `ctx.Err()` rather
than a wait result. -/
theorem runOneOff_ctx_cancel (r : DockerRelayer) (opts : OneOffOptions)
    (env : OneOffEnv) (id : String)
    (hcreate : env.createRes = .ok id)
    (hcopy : opts.TarContent = none ∨ env.copyErr = none)
    (hstart : env.startErr = none)
    (hwait : env.waitBranch = WaitBranch.ctxDone) :
    (r.runOneOff opts env).1 = some env.ctxErr := by
  obtain ⟨cr, ce, se, wb, re, cx⟩ := env
  obtain ⟨d, ep, cmd, u, t⟩ := opts
  simp only at hcreate hstart hwait hcopy
  subst hcreate hstart hwait
  rcases hcopy with h | h
  · subst h
    cases ce <;> rfl
  · subst h
    cases t <;> rfl

/-- Witness for C8: cancellation during the wait at concrete inputs
yields the context's error. -/
theorem runOneOff_ctx_cancel_witness :
    (exampleRelayer.runOneOff exampleOneOffOpts exampleCancelEnv).1
      = some "context canceled" :=
  runOneOff_ctx_cancel exampleRelayer exampleOneOffOpts exampleCancelEnv "ctr-2"
    rfl (Or.inr rfl) rfl rfl

/-- Claim C7: in every `runOneOff` execution whose options carry tar
content, any `ContainerStart` in the Docker-operation trace is strictly
preceded by the `CopyToContainer` into the relayer home directory, and if
the copy fails the call errors and the container is never started. -/
theorem runOneOff_copy_precedes_start (r : DockerRelayer) (opts : OneOffOptions)
    (env : OneOffEnv) (htar : opts.TarContent ≠ none) :
    (∀ n, (r.runOneOff opts env).2.get? n = some DockerOp.containerStart →
      ∃ m, m < n ∧
        (r.runOneOff opts env).2.get? m = some (DockerOp.copyToContainer r.HomeDir)) ∧
    (env.copyErr ≠ none →
      (r.runOneOff opts env).1 ≠ none ∧
      DockerOp.containerStart ∉ (r.runOneOff opts env).2) := by
  obtain ⟨cr, ce, se, wb, re, cx⟩ := env
  obtain ⟨d, ep, cmd, u, t⟩ := opts
  simp only at htar
  cases t with
  | none => exact absurd rfl htar
  | some a =>
    cases cr with
    | error e =>
      refine ⟨?_, ?_⟩
      · intro n hn
        match n with
        | 0 => simp [DockerRelayer.runOneOff] at hn
        | n+1 => simp [DockerRelayer.runOneOff, List.get?] at hn
      · intro hce
        exact ⟨by simp [DockerRelayer.runOneOff], by simp [DockerRelayer.runOneOff]⟩
    | ok cid =>
      cases ce with
      | some e =>
        refine ⟨?_, ?_⟩
        · intro n hn
          match n with
          | 0 => simp [DockerRelayer.runOneOff] at hn
          | 1 => simp [DockerRelayer.runOneOff] at hn
          | 2 => simp [DockerRelayer.runOneOff] at hn
          | n+3 => simp [DockerRelayer.runOneOff, List.get?] at hn
        · intro hce
          exact ⟨by simp [DockerRelayer.runOneOff], by simp [DockerRelayer.runOneOff]⟩
      | none =>
        cases se with
        | some e =>
          refine ⟨?_, ?_⟩
          · intro n hn
            match n with
            | 0 => simp [DockerRelayer.runOneOff] at hn
            | 1 => simp [DockerRelayer.runOneOff] at hn
            | 2 => exact ⟨1, by omega, by simp [DockerRelayer.runOneOff]⟩
            | 3 => simp [DockerRelayer.runOneOff, List.get?] at hn
            | n+4 => simp [DockerRelayer.runOneOff, List.get?] at hn
          · intro hce
            exact absurd rfl hce
        | none =>
          refine ⟨?_, ?_⟩
          · intro n hn
            match n with
            | 0 => simp [DockerRelayer.runOneOff] at hn
            | 1 => simp [DockerRelayer.runOneOff] at hn
            | 2 => exact ⟨1, by omega, by simp [DockerRelayer.runOneOff]⟩
            | 3 => simp [DockerRelayer.runOneOff, List.get?] at hn
            | 4 => simp [DockerRelayer.runOneOff, List.get?] at hn
            | n+5 => simp [DockerRelayer.runOneOff, List.get?] at hn
          · intro hce
            exact absurd rfl hce

/-- Witness for C7: in a fully successful run at concrete inputs, the
start at trace position 2 is preceded by the copy. -/
theorem runOneOff_copy_precedes_start_witness :
    ∃ m, m < 2 ∧
      (exampleRelayer.runOneOff exampleOneOffOpts exampleOneOffEnv).2.get? m
        = some (DockerOp.copyToContainer exampleRelayer.HomeDir) :=
  (runOneOff_copy_precedes_start exampleRelayer exampleOneOffOpts exampleOneOffEnv
      (by simp [exampleOneOffOpts])).1 2 rfl

/-- Claim C9: the volume created by `NewDockerRelayer`, the long-running
container created by `createNodeContainer`, and every one-off container
created by `runOneOff` carry exactly the cleanup label mapping
`CleanupLabel` to the run's test name. -/
theorem cleanup_label_on_created_resources :
    (∀ testName c networkID customImage pullImage env startNow labels,
      DockerOp.volumeCreate labels ∈
        (NewDockerRelayer testName c networkID customImage pullImage env startNow).2 →
      labels = [(CleanupLabel, testName)]) ∧
    (∀ (r : DockerRelayer) pathName cenv s labels,
      DockerOp.containerCreate labels ∈ (r.createNodeContainer pathName cenv s).2.2 →
      labels = [(CleanupLabel, r.testName)]) ∧
    (∀ (r : DockerRelayer) opts oenv labels,
      DockerOp.containerCreate labels ∈ (r.runOneOff opts oenv).2 →
      labels = [(CleanupLabel, r.testName)]) := by
  refine ⟨?_, ?_, ?_⟩
  · intro tn c nid ci pi env sn labels hmem
    obtain ⟨pe, vr, so, ir, idur⟩ := env
    obtain ⟨ierr, iec, iso, ise⟩ := ir
    cases pi <;> cases pe <;> cases vr <;> cases so <;> cases ierr <;>
      by_cases hil : 0 < (c.Init ("/var/relayer-" ++ c.Name)).length <;>
      simp_all [NewDockerRelayer, DockerRelayer.Exec, DockerRelayer.HomeDir,
        DockerRelayer.containerImage]
  · intro r pathName cenv s labels hmem
    cases hc : cenv.createRes <;> simp_all [DockerRelayer.createNodeContainer]
  · intro r opts oenv labels hmem
    obtain ⟨cr, ce, se, wb, re, cx⟩ := oenv
    obtain ⟨d, ep, cmd, u, t⟩ := opts
    cases t <;> cases cr <;> cases ce <;> cases se <;>
      simp_all [DockerRelayer.runOneOff]

/-- Witness for C9: the labels of the concrete long-running container of
`exampleRelayer` are exactly the cleanup label for its test name. -/
theorem cleanup_label_on_created_resources_witness :
    [(CleanupLabel, "TestExample")] = [(CleanupLabel, exampleRelayer.testName)] :=
  cleanup_label_on_created_resources.2.1 exampleRelayer "path-1" exampleCreateEnv
    exampleState [(CleanupLabel, "TestExample")]
    (by simp [DockerRelayer.createNodeContainer, exampleCreateEnv, exampleRelayer])

end Ibctest
